import Mathlib

/-!
Verification development for the certification-program dashboard
(Hedera Community Platform).  The definitions below are a shallow
embedding of the repository's persistence layer
(src/src/db/operations.ts, provided as src/unnamed/part_002, and
src/src/db/schema.ts) and of the Netlify API gateway
(src/netlify/functions/api.ts).  LocalStorage is embedded as a typed
`Store` (one field per collection key); `setItem` failures (quota
exceeded) are an oracle `saveFails` on keys, and a thrown JS exception
is the `some msg` component of an operation's `Store × Option String`
result (JS exceptions do not roll back earlier completed writes, so
operations return the final store even on error).
-/

-- ===========================================================================
-- Data model (src/src/db/schema.ts)
-- ===========================================================================

/-- Action type of an audit entry (schema.ts, AuditLogSchema.action). -/
inductive AuditAction where
  | CREATE | UPDATE | DELETE | VIEW | UPLOAD | EMAIL_SENT | INVOICE_CREATED | LOGIN
deriving DecidableEq

/-- Entity type of an audit entry (schema.ts, AuditLogSchema.entityType). -/
inductive AuditEntityType where
  | developer | invoice | event | agreement | campaign | admin | registry
deriving DecidableEq

/-- Audit log entry (schema.ts, AuditLogSchema). -/
structure AuditLogSchema where
  id : String
  userId : String
  userEmail : String
  timestamp : String
  action : AuditAction
  entityType : AuditEntityType
  entityId : Option String
  details : String
  partnerCode : Option String
deriving DecidableEq

/-- Currency enum shared by invoices and agreements (schema.ts). -/
inductive Currency where
  | HBAR | USDC | USD | EUR
deriving DecidableEq

/-- Invoice status enum (schema.ts, InvoiceSchema.status). -/
inductive InvoiceStatus where
  | Draft | Sent | Paid | Overdue | Void
deriving DecidableEq

/-- Invoice line item (schema.ts, InvoiceLineItemSchema).  TS `number`
fields are embedded as `Int`; no arithmetic is performed on them. -/
structure InvoiceLineItem where
  id : String
  description : String
  quantity : Int
  unitPrice : Int
  total : Int
deriving DecidableEq

/-- Invoice record (schema.ts, InvoiceSchema). -/
structure Invoice where
  id : String
  invoiceNumber : String
  partnerCode : String
  billingPeriod : String
  issueDate : String
  dueDate : String
  currency : Currency
  items : List InvoiceLineItem
  subtotal : Int
  taxRate : Int
  taxAmount : Int
  totalAmount : Int
  status : InvoiceStatus
  notes : String
  publicMemo : String
  paidAt : Option String
  transactionReference : Option String
deriving DecidableEq

/-- Admin role enum (schema.ts, AdminSchema.role). -/
inductive AdminRole where
  | superAdminHQ
  | regionalAdminCluster
  | communityAdminLocal
deriving DecidableEq

/-- Admin account status enum (schema.ts, AdminSchema.status). -/
inductive AdminStatus where
  | Active | Invited | Disabled
deriving DecidableEq

/-- Admin user record (schema.ts, AdminSchema). -/
structure AdminUser where
  id : String
  name : String
  email : String
  role : AdminRole
  assignedCodes : List String
  lastLogin : String
  status : AdminStatus
deriving DecidableEq

/-- Modelled from the spec: the `DatasetVersion` type is imported from
`../types`, which is not among the sources.  Per the spec a dataset
version is "a retained snapshot of an uploaded developer dataset"; the
fields are the ones the repository operations read (`id`, `fileName`,
`recordCount`). -/
structure DatasetVersion where
  id : String
  fileName : String
  recordCount : Nat
deriving DecidableEq

-- ===========================================================================
-- Storage keys (schema.ts, COLLECTION_KEYS)
-- ===========================================================================

def COLLECTION_KEYS.VERSIONS : String := "hcp_versions"

def COLLECTION_KEYS.INVOICES : String := "hcp_invoices"

def COLLECTION_KEYS.ADMINS : String := "hcp_admins"

def COLLECTION_KEYS.AUDIT_LOGS : String := "hcp_audit_logs"

-- ===========================================================================
-- Storage layer (operations.ts: saveToStorage / loadFromStorage)
-- ===========================================================================

/-- The localStorage-backed collections the verified claims touch, one
typed field per collection key.  `admins = none` means the key is
absent (so `loadFromStorage` returns its fallback, MOCK_ADMIN_TEAM);
for the other collections the fallback is `[]`, which an absent key is
observationally equal to.  `saveFails k = true` means the backing
medium rejects writes to key `k` (quota exceeded), making
`localStorage.setItem` throw. -/
structure Store where
  versions : List DatasetVersion
  invoices : List Invoice
  admins : Option (List AdminUser)
  auditLogs : List AuditLogSchema
  saveFails : String → Bool

/-- Generic save operation (operations.ts, saveToStorage).  JSON
serialization is the identity on the typed store; a `setItem` failure
makes it throw `Storage quota exceeded or unavailable for <key>`
without changing the store.  `set` is the typed update of the field
that belongs to `key`. -/
def saveToStorage (st : Store) (key : String) (set : Store → Store) :
    Store × Option String :=
  if st.saveFails key then
    (st, some ("Storage quota exceeded or unavailable for " ++ key))
  else
    (set st, none)

-- ===========================================================================
-- Audit logging (operations.ts, createAuditLog)
-- ===========================================================================

/-- Input of `createAuditLog`: an audit entry minus `id` and
`timestamp` (TS `Omit<AuditLogSchema, 'id' | 'timestamp'>`). -/
structure AuditLogInput where
  userId : String
  userEmail : String
  action : AuditAction
  entityType : AuditEntityType
  entityId : Option String
  details : String
  partnerCode : Option String
deriving DecidableEq

/-- The audit entry built by `createAuditLog`; `newId` stands for the
environment-supplied id `audit_<Date.now()>_<random>` and `ts` for
`new Date().toISOString()`. -/
def mkAuditLog (inp : AuditLogInput) (newId ts : String) : AuditLogSchema :=
  { id := newId, userId := inp.userId, userEmail := inp.userEmail,
    timestamp := ts, action := inp.action, entityType := inp.entityType,
    entityId := inp.entityId, details := inp.details,
    partnerCode := inp.partnerCode }

/-- Create an audit log entry (operations.ts, createAuditLog): prepend
the new entry, keep the most recent 1000, save.  The id and timestamp
come from the environment as `newId` and `ts`. -/
def createAuditLog (st : Store) (inp : AuditLogInput) (newId ts : String) :
    Store × Option String :=
  let logs := st.auditLogs
  let newLog := mkAuditLog inp newId ts
  let updatedLogs := (newLog :: logs).take 1000
  saveToStorage st COLLECTION_KEYS.AUDIT_LOGS
    (fun s => { s with auditLogs := updatedLogs })

-- ===========================================================================
-- Dataset version operations (operations.ts, DatasetVersions)
-- ===========================================================================

/-- Get all dataset versions (operations.ts, DatasetVersions.getAll). -/
def DatasetVersions.getAll (st : Store) : List DatasetVersion :=
  st.versions

/-- Save a new dataset version (operations.ts, DatasetVersions.save):
prepend, pop the last element when the length exceeds 5, persist,
audit. -/
def DatasetVersions.save (st : Store) (version : DatasetVersion)
    (userId newId ts : String) : Store × Option String :=
  let current := DatasetVersions.getAll st
  let updated := version :: current
  let updated2 := if updated.length > 5 then updated.dropLast else updated
  match saveToStorage st COLLECTION_KEYS.VERSIONS
      (fun s => { s with versions := updated2 }) with
  | (st1, some err) => (st1, some err)
  | (st1, none) =>
      createAuditLog st1
        { userId := userId, userEmail := "system",
          action := AuditAction.UPLOAD,
          entityType := AuditEntityType.developer,
          entityId := some version.id,
          details := "Uploaded dataset: " ++ version.fileName ++ " with "
            ++ toString version.recordCount ++ " records",
          partnerCode := none } newId ts

-- ===========================================================================
-- Invoice operations (operations.ts, Invoices)
-- ===========================================================================

/-- Bulk save of the invoice collection (operations.ts, Invoices.save). -/
def Invoices.save (st : Store) (invoices : List Invoice) :
    Store × Option String :=
  saveToStorage st COLLECTION_KEYS.INVOICES
    (fun s => { s with invoices := invoices })

/-- Get all invoices, optionally filtered by partner code
(operations.ts, Invoices.getAll).  The JS guard `if (partnerCode)` is
falsy both for an omitted argument (`none`) and for the empty string. -/
def Invoices.getAll (st : Store) (partnerCode : Option String) : List Invoice :=
  let invoices := st.invoices
  match partnerCode with
  | some pc => if pc.isEmpty then invoices
               else invoices.filter (fun i => i.partnerCode == pc)
  | none => invoices

/-- Get a specific invoice by id (operations.ts, Invoices.getById). -/
def Invoices.getById (st : Store) (id : String) : Option Invoice :=
  (Invoices.getAll st none).find? (fun i => i.id == id)

/-- Create a new invoice (operations.ts, Invoices.create): unshift,
persist the whole collection, audit. -/
def Invoices.create (st : Store) (invoice : Invoice)
    (userId newId ts : String) : Store × Option String :=
  let invoices := Invoices.getAll st none
  let invoices2 := invoice :: invoices
  match Invoices.save st invoices2 with
  | (st1, some err) => (st1, some err)
  | (st1, none) =>
      createAuditLog st1
        { userId := userId, userEmail := "system",
          action := AuditAction.INVOICE_CREATED,
          entityType := AuditEntityType.invoice,
          entityId := some invoice.id,
          details := "Created invoice " ++ invoice.invoiceNumber ++ " for "
            ++ invoice.partnerCode,
          partnerCode := some invoice.partnerCode } newId ts

/-- Partial invoice (TS `Partial<Invoice>`): every field optional;
the two fields that are already optional get a present-or-absent layer. -/
structure InvoicePatch where
  id : Option String
  invoiceNumber : Option String
  partnerCode : Option String
  billingPeriod : Option String
  issueDate : Option String
  dueDate : Option String
  currency : Option Currency
  items : Option (List InvoiceLineItem)
  subtotal : Option Int
  taxRate : Option Int
  taxAmount : Option Int
  totalAmount : Option Int
  status : Option InvoiceStatus
  notes : Option String
  publicMemo : Option String
  paidAt : Option (Option String)
  transactionReference : Option (Option String)
deriving DecidableEq

/-- Object spread `{ ...invoice, ...updates }`: a key present in the
patch overrides the existing field. -/
def applyPatch (u : InvoicePatch) (i : Invoice) : Invoice :=
  { id := u.id.getD i.id,
    invoiceNumber := u.invoiceNumber.getD i.invoiceNumber,
    partnerCode := u.partnerCode.getD i.partnerCode,
    billingPeriod := u.billingPeriod.getD i.billingPeriod,
    issueDate := u.issueDate.getD i.issueDate,
    dueDate := u.dueDate.getD i.dueDate,
    currency := u.currency.getD i.currency,
    items := u.items.getD i.items,
    subtotal := u.subtotal.getD i.subtotal,
    taxRate := u.taxRate.getD i.taxRate,
    taxAmount := u.taxAmount.getD i.taxAmount,
    totalAmount := u.totalAmount.getD i.totalAmount,
    status := u.status.getD i.status,
    notes := u.notes.getD i.notes,
    publicMemo := u.publicMemo.getD i.publicMemo,
    paidAt := u.paidAt.getD i.paidAt,
    transactionReference := u.transactionReference.getD i.transactionReference }

/-- Update an invoice (operations.ts, Invoices.update): find the first
record with the id; if absent do nothing; otherwise replace it in
place with the spread-merge, persist, audit (the audit entry reads the
merged record's invoiceNumber and partnerCode). -/
def Invoices.update (st : Store) (id : String) (updates : InvoicePatch)
    (userId newId ts : String) : Store × Option String :=
  let invoices := Invoices.getAll st none
  match invoices.findIdx? (fun i => i.id == id) with
  | none => (st, none)
  | some idx =>
      match invoices[idx]? with
      | none => (st, none)
      | some old =>
          let merged := applyPatch updates old
          let invoices2 := invoices.set idx merged
          match Invoices.save st invoices2 with
          | (st1, some err) => (st1, some err)
          | (st1, none) =>
              createAuditLog st1
                { userId := userId, userEmail := "system",
                  action := AuditAction.UPDATE,
                  entityType := AuditEntityType.invoice,
                  entityId := some id,
                  details := "Updated invoice " ++ merged.invoiceNumber,
                  partnerCode := some merged.partnerCode } newId ts

-- ===========================================================================
-- Admin operations (operations.ts, Admins)
-- ===========================================================================

/-- Get all admins (operations.ts, Admins.getAll).  The fallback
MOCK_ADMIN_TEAM is imported from `../constants`, a module not among
the sources, so it is a parameter `mock` here. -/
def Admins.getAll (mock : List AdminUser) (st : Store) : List AdminUser :=
  (st.admins).getD mock

/-- Get admin by id (operations.ts, Admins.getById). -/
def Admins.getById (mock : List AdminUser) (st : Store) (id : String) :
    Option AdminUser :=
  (Admins.getAll mock st).find? (fun a => a.id == id)

/-- Check if a user has access to a partner code (operations.ts,
Admins.hasAccess). -/
def Admins.hasAccess (mock : List AdminUser) (st : Store)
    (userId partnerCode : String) : Bool :=
  match Admins.getById mock st userId with
  | none => false
  | some admin =>
      if admin.role = AdminRole.superAdminHQ then true
      else admin.assignedCodes.contains partnerCode

-- ===========================================================================
-- API gateway (src/netlify/functions/api.ts)
-- ===========================================================================

/-- Result row of a SQL query; field values are uninterpreted strings (the
claims never inspect them). -/
structure Row where
  fields : List (String × String)
deriving DecidableEq

/-- Response body: the JSON payload passed to JSON.stringify. -/
inductive RespBody where
  | error (msg : String)
  | rows (rs : List Row)
  | row (r : Option Row)
deriving DecidableEq

/-- HTTP response of the Netlify handler. -/
structure HandlerResponse where
  statusCode : Nat
  body : RespBody
deriving DecidableEq

/-- Gateway run result: the response plus the trace of SQL queries the
handler issued against the storage layer (`query` calls with their
parameter lists), in order. -/
structure GwResult where
  response : HandlerResponse
  queries : List (String × List String)
deriving DecidableEq

/-- Parsed POST body `{ type, data }`: `data` is the object's key/value
list in key order (`none` = the property is absent or null; values are
uninterpreted strings). -/
structure PostBody where
  type : Option String
  data : Option (List (String × String))
deriving DecidableEq

/-- Gateway request event.  `authorization` / `authorizationCap` are
`event.headers.authorization` and `event.headers.Authorization`;
`queryType` is `event.queryStringParameters?.type`; `parsedBody` is the
outcome of `JSON.parse(event.body || '\x7b\x7d')` (`Except.error` = the
parse threw). -/
structure GwEvent where
  authorization : Option String
  authorizationCap : Option String
  httpMethod : String
  queryType : Option String
  parsedBody : Except Unit PostBody

/-- Gateway environment: the JWT secret from `process.env`
(`none` = unset), the token verifier, and the database.
`verifyTok tok secret = true` models `jwt.verify(tok, secret)`
succeeding; `db text params` models `query(text, params)`
(`Except.error` = the query threw). -/
structure GwEnv where
  jwtSecret : Option String
  verifyTok : String → String → Bool
  db : String → List String → Except Unit (List Row)

/-- Modelled from the spec: the claims a JWT carries, as far as
`jsonwebtoken.verify` (an external library, not among the sources)
examines them — structural well-formedness, the secret the signature
was produced with, and the expiry instant. -/
structure JwtTok where
  wellFormed : Bool
  secret : String
  exp : Nat
deriving DecidableEq

/-- Modelled from the spec: `jwt.verify(token, secret)` succeeds iff
the token is well formed, is signed with `secret`, and is not expired
at the current instant `now`.  `decode` maps the token string to the
claims it carries. -/
def jwtVerify (decode : String → JwtTok) (tok secret : String) (now : Nat) :
    Bool :=
  let t := decode tok
  t.wellFormed && (t.secret == secret) && decide (now < t.exp)

/-- JS `a || b` on two optional header strings: `a` wins unless it is
absent or empty (falsy). -/
def jsOrStr (a b : Option String) : Option String :=
  match a with
  | some s => if s.isEmpty then b else some s
  | none => b

/-- JS `String.prototype.startsWith` (and `authHeader.startsWith`):
the string begins with the given prefix, compared character by
character (kernel-reducible, unlike core `String.startsWith`). -/
def strStartsWith (s p : String) : Bool :=
  p.data.isPrefixOf s.data

/-- Validate column names to prevent SQL injection (api.ts,
isValidColumnName): the regex `^[a-zA-Z_][a-zA-Z0-9_]*$`. -/
def isAsciiLetter (c : Char) : Bool :=
  ("a".front ≤ c && c ≤ "z".front) || ("A".front ≤ c && c ≤ "Z".front)

/-- Decimal digit 0-9. -/
def isAsciiDigit (c : Char) : Bool :=
  "0".front ≤ c && c ≤ "9".front

/-- Whole-string match of `^[a-zA-Z_][a-zA-Z0-9_]*$`. -/
def isValidColumnName (name : String) : Bool :=
  match name.data with
  | [] => false
  | c :: rest =>
      (isAsciiLetter c || c == "_".front)
        && rest.all (fun d => isAsciiLetter d || isAsciiDigit d || d == "_".front)

/-- Entity-type allow-list (api.ts, entityTableMap): record lookup
`entityTableMap[type]`. -/
def entityTableMap (t : String) : Option String :=
  if t == "developers" then some "developers"
  else if t == "invoices" then some "invoices"
  else if t == "events" then some "events"
  else if t == "admins" then some "admins"
  else if t == "agreements" then some "agreements"
  else if t == "campaigns" then some "campaigns"
  else if t == "registry" then some "registry"
  else none

/-- The GET dispatch switch (api.ts, lines 64-91): each case assigns
the corresponding `entityTableMap` entry; default rejects. -/
def switchTableForType (t : String) : Option String :=
  if t == "developers" then entityTableMap "developers"
  else if t == "invoices" then entityTableMap "invoices"
  else if t == "events" then entityTableMap "events"
  else if t == "admins" then entityTableMap "admins"
  else if t == "agreements" then entityTableMap "agreements"
  else if t == "campaigns" then entityTableMap "campaigns"
  else if t == "registry" then entityTableMap "registry"
  else none

/-- GET branch of the handler (api.ts, lines 51-105). -/
def handleGet (env : GwEnv) (event : GwEvent) : GwResult :=
  match event.queryType with
  | none => ⟨⟨400, RespBody.error "Missing type parameter"⟩, []⟩
  | some t =>
      if t.isEmpty then ⟨⟨400, RespBody.error "Missing type parameter"⟩, []⟩
      else
        match switchTableForType t with
        | none => ⟨⟨400, RespBody.error "Invalid type parameter"⟩, []⟩
        | some tableName =>
            let q := "SELECT * FROM " ++ tableName
            match env.db q [] with
            | Except.ok result => ⟨⟨200, RespBody.rows result⟩, [(q, [])]⟩
            | Except.error _ =>
                ⟨⟨500, RespBody.error "Internal server error"⟩, [(q, [])]⟩

/-- JS truthiness of an optional string (`undefined` and `""` falsy). -/
def jsTruthy (o : Option String) : Bool :=
  match o with
  | none => false
  | some s => !s.isEmpty

/-- POST branch of the handler (api.ts, lines 108-158). -/
def handlePost (env : GwEnv) (event : GwEvent) : GwResult :=
  match event.parsedBody with
  | Except.error _ => ⟨⟨500, RespBody.error "Internal server error"⟩, []⟩
  | Except.ok body =>
      if !jsTruthy body.type || body.data == none then
        ⟨⟨400, RespBody.error "Missing type or data in request body"⟩, []⟩
      else
        match entityTableMap (body.type.getD "") with
        | none => ⟨⟨400, RespBody.error "Invalid type parameter"⟩, []⟩
        | some tableName =>
            let kvs := body.data.getD []
            let keys := kvs.map (fun kv => kv.1)
            if keys.any (fun k => !isValidColumnName k) then
              ⟨⟨400, RespBody.error "Invalid column name in data"⟩, []⟩
            else
              let values := kvs.map (fun kv => kv.2)
              let columns := String.intercalate ", " keys
              let placeholders := String.intercalate ", "
                ((List.range keys.length).map (fun i => "$" ++ toString (i + 1)))
              let insertQuery := "INSERT INTO " ++ tableName ++ " (" ++ columns
                ++ ") VALUES (" ++ placeholders ++ ") RETURNING *"
              match env.db insertQuery values with
              | Except.ok result =>
                  ⟨⟨200, RespBody.row result.head?⟩, [(insertQuery, values)]⟩
              | Except.error _ =>
                  ⟨⟨500, RespBody.error "Internal server error"⟩,
                    [(insertQuery, values)]⟩

/-- The gateway handler (api.ts, handler): bearer-token check, then
dispatch on the HTTP method. -/
def handler (env : GwEnv) (event : GwEvent) : GwResult :=
  let authHeader := jsOrStr event.authorization event.authorizationCap
  match authHeader with
  | none => ⟨⟨401, RespBody.error "Unauthorized"⟩, []⟩
  | some h =>
      if !strStartsWith h "Bearer " then
        ⟨⟨401, RespBody.error "Unauthorized"⟩, []⟩
      else
        let token := h.drop 7
        match env.jwtSecret with
        | none => ⟨⟨500, RespBody.error "Internal server error"⟩, []⟩
        | some secret =>
            if secret.isEmpty then
              ⟨⟨500, RespBody.error "Internal server error"⟩, []⟩
            else if !env.verifyTok token secret then
              ⟨⟨401, RespBody.error "Invalid token"⟩, []⟩
            else if event.httpMethod == "GET" then handleGet env event
            else if event.httpMethod == "POST" then handlePost env event
            else ⟨⟨405, RespBody.error "Method not allowed"⟩, []⟩

-- ===========================================================================
-- Proof-level helper definitions and concrete fixtures
-- ===========================================================================

/-- List-level reading of `Admins.hasAccess` (the body of
operations.ts hasAccess applied to an explicit admin list); equal by
unfolding to `Admins.hasAccess` whenever the admins key is present. -/
def hasAccessList (admins : List AdminUser) (userId partnerCode : String) :
    Bool :=
  match admins.find? (fun a => a.id == userId) with
  | none => false
  | some admin =>
      if admin.role = AdminRole.superAdminHQ then true
      else admin.assignedCodes.contains partnerCode

/-- Two admin records that agree on every field except possibly
`status`. -/
def sameExceptStatus (a b : AdminUser) : Prop :=
  a.id = b.id ∧ a.name = b.name ∧ a.email = b.email ∧ a.role = b.role
    ∧ a.assignedCodes = b.assignedCodes ∧ a.lastLogin = b.lastLogin

/-- Record a whole sequence of audit entries, each with its
environment-supplied id and timestamp, in order (repeated
`createAuditLog` calls). -/
def recordAll (st : Store)
    (entries : List (AuditLogInput × String × String)) : Store :=
  entries.foldl (fun s e => (createAuditLog s e.1 e.2.1 e.2.2).1) st

/-- The audit entry an element of `recordAll`'s input turns into. -/
def mkEntry (e : AuditLogInput × String × String) : AuditLogSchema :=
  mkAuditLog e.1 e.2.1 e.2.2

/-- Concrete community admin used by witnesses. -/
def adminA : AdminUser :=
  { id := "u1", name := "Ann", email := "ann@example.com",
    role := AdminRole.communityAdminLocal, assignedCodes := ["P1"],
    lastLogin := "2024-01-01", status := AdminStatus.Active }

/-- The same record with status Disabled. -/
def adminADisabled : AdminUser :=
  { adminA with status := AdminStatus.Disabled }

/-- Store whose admins collection holds exactly `adminA`. -/
def store0 : Store :=
  { versions := [], invoices := [], admins := some [adminA], auditLogs := [],
    saveFails := fun _ => false }

/-- Fully empty store with reliable storage. -/
def storeEmpty : Store :=
  { versions := [], invoices := [], admins := none, auditLogs := [],
    saveFails := fun _ => false }

/-- Store whose backing medium rejects writes to the audit-log key
only (quota exhausted for `hcp_audit_logs`). -/
def storeAuditBroken : Store :=
  { versions := [], invoices := [], admins := none, auditLogs := [],
    saveFails := fun k => k == "hcp_audit_logs" }

/-- Concrete invoice used by witnesses. -/
def inv0 : Invoice :=
  { id := "i1", invoiceNumber := "INV-2024-001", partnerCode := "P1",
    billingPeriod := "2024-10", issueDate := "2024-10-01",
    dueDate := "2024-10-31", currency := Currency.USD, items := [],
    subtotal := 100, taxRate := 0, taxAmount := 0, totalAmount := 100,
    status := InvoiceStatus.Draft, notes := "", publicMemo := "",
    paidAt := none, transactionReference := none }

/-- Concrete field-level update: mark paid. -/
def patch0 : InvoicePatch :=
  { id := none, invoiceNumber := none, partnerCode := none,
    billingPeriod := none, issueDate := none, dueDate := none,
    currency := none, items := none, subtotal := none, taxRate := none,
    taxAmount := none, totalAmount := none,
    status := some InvoiceStatus.Paid, notes := none, publicMemo := none,
    paidAt := some (some "2024-11-01"), transactionReference := none }

/-- Store holding exactly `inv0`. -/
def storeInv : Store :=
  { versions := [], invoices := [inv0], admins := none, auditLogs := [],
    saveFails := fun _ => false }

/-- A dataset version with a numbered id. -/
def dsv (n : Nat) : DatasetVersion :=
  { id := toString n, fileName := "data.csv", recordCount := n }

/-- Store already holding 5 retained dataset versions. -/
def store5 : Store :=
  { versions := [dsv 1, dsv 2, dsv 3, dsv 4, dsv 5], invoices := [],
    admins := none, auditLogs := [], saveFails := fun _ => false }

/-- Concrete audit input used by witnesses. -/
def inp0 : AuditLogInput :=
  { userId := "u1", userEmail := "system", action := AuditAction.CREATE,
    entityType := AuditEntityType.invoice, entityId := none,
    details := "d", partnerCode := none }

/-- Concrete token decoder: every token string carries well-formed
claims signed with secret `s`, expiring at instant 10. -/
def decode0 : String → JwtTok :=
  fun _ => { wellFormed := true, secret := "s", exp := 10 }

/-- Concrete gateway environment: secret `s` configured, verifier the
modelled `jwt.verify` at instant 0, database always answering with no
rows. -/
def env0 : GwEnv :=
  { jwtSecret := some "s",
    verifyTok := fun tok sec => jwtVerify decode0 tok sec 0,
    db := fun _ _ => Except.ok [] }

/-- Authenticated GET request for the invoices collection. -/
def eventGet : GwEvent :=
  { authorization := some "Bearer abc", authorizationCap := none,
    httpMethod := "GET", queryType := some "invoices",
    parsedBody := Except.ok { type := none, data := none } }

/-- Request with no authorization header at all. -/
def eventNoAuth : GwEvent :=
  { authorization := none, authorizationCap := none, httpMethod := "GET",
    queryType := some "invoices",
    parsedBody := Except.ok { type := none, data := none } }

/-- Authenticated POST whose data object has the field name
`bad col` (contains a space). -/
def eventBadCol : GwEvent :=
  { authorization := some "Bearer abc", authorizationCap := none,
    httpMethod := "POST", queryType := none,
    parsedBody := Except.ok
      { type := some "invoices", data := some [("bad col", "x")] } }

/-- Authenticated PUT request with a well-formed write body. -/
def eventPut : GwEvent :=
  { authorization := some "Bearer abc", authorizationCap := none,
    httpMethod := "PUT", queryType := none,
    parsedBody := Except.ok
      { type := some "invoices", data := some [("id", "i1")] } }

/-- The same request with method PATCH. -/
def eventPatch : GwEvent :=
  { eventPut with httpMethod := "PATCH" }

/-- The same request with method POST. -/
def eventPostGood : GwEvent :=
  { eventPut with httpMethod := "POST" }

-- ===========================================================================
-- Helper lemmas
-- ===========================================================================

theorem createAuditLog_fst_invoices (st : Store) (inp : AuditLogInput)
    (i t : String) : ((createAuditLog st inp i t).1).invoices = st.invoices := by
  unfold createAuditLog saveToStorage
  split <;> rfl

theorem createAuditLog_fst_versions (st : Store) (inp : AuditLogInput)
    (i t : String) : ((createAuditLog st inp i t).1).versions = st.versions := by
  unfold createAuditLog saveToStorage
  split <;> rfl

theorem createAuditLog_fst_saveFails (st : Store) (inp : AuditLogInput)
    (i t : String) :
    ((createAuditLog st inp i t).1).saveFails = st.saveFails := by
  unfold createAuditLog saveToStorage
  split <;> rfl

theorem createAuditLog_fst_auditLogs_ok (st : Store) (inp : AuditLogInput)
    (i t : String) (hsave : st.saveFails COLLECTION_KEYS.AUDIT_LOGS = false) :
    ((createAuditLog st inp i t).1).auditLogs
      = (mkAuditLog inp i t :: st.auditLogs).take 1000 := by
  unfold createAuditLog saveToStorage
  simp [hsave]

theorem createAuditLog_snd (st : Store) (inp : AuditLogInput) (i t : String) :
    (createAuditLog st inp i t).2
      = if st.saveFails COLLECTION_KEYS.AUDIT_LOGS then
          some ("Storage quota exceeded or unavailable for "
            ++ COLLECTION_KEYS.AUDIT_LOGS)
        else none := by
  unfold createAuditLog saveToStorage
  split <;> simp_all

theorem invoices_create_fst_invoices (st : Store) (inv : Invoice)
    (u a t : String) (hsave : st.saveFails COLLECTION_KEYS.INVOICES = false) :
    ((Invoices.create st inv u a t).1).invoices = inv :: st.invoices := by
  unfold Invoices.create Invoices.save saveToStorage Invoices.getAll
  simp only [hsave, Bool.false_eq_true, if_false]
  rw [createAuditLog_fst_invoices]

theorem hasAccess_eq_list (mock : List AdminUser) (l : List AdminUser)
    (st : Store) (uid pc : String) (h : st.admins = some l) :
    Admins.hasAccess mock st uid pc = hasAccessList l uid pc := by
  unfold Admins.hasAccess Admins.getById Admins.getAll hasAccessList
  rw [h]
  rfl

theorem hasAccessList_congr {l₁ l₂ : List AdminUser}
    (h : List.Forall₂ sameExceptStatus l₁ l₂) (uid pc : String) :
    hasAccessList l₁ uid pc = hasAccessList l₂ uid pc := by
  induction h with
  | nil => rfl
  | @cons a b m₁ m₂ hab htl ih =>
      obtain ⟨hid, _, _, hrole, hcodes, _⟩ := hab
      unfold hasAccessList
      simp only [List.find?]
      rw [← hid]
      cases hpa : (a.id == uid) with
      | true =>
          show (if a.role = AdminRole.superAdminHQ then true
                else a.assignedCodes.contains pc)
              = (if b.role = AdminRole.superAdminHQ then true
                else b.assignedCodes.contains pc)
          rw [hrole, hcodes]
      | false => exact ih

-- ===========================================================================
-- C2: Admins.hasAccess functional correctness
-- ===========================================================================

/-- C2: `hasAccess(actorId, partnerCode)` returns false when no admin
with that id exists; returns true for every partner code when the
found actor's role is Super Admin (HQ); otherwise it returns true iff
the partner code is a member of the actor's assignedCodes list. -/
theorem hasAccess_correct (mock : List AdminUser) (st : Store)
    (uid pc : String) :
    ((∀ a ∈ Admins.getAll mock st, a.id ≠ uid) →
        Admins.hasAccess mock st uid pc = false)
    ∧ (∀ a, (Admins.getAll mock st).find? (fun x => x.id == uid) = some a →
        (a.role = AdminRole.superAdminHQ →
            Admins.hasAccess mock st uid pc = true)
        ∧ (a.role ≠ AdminRole.superAdminHQ →
            (Admins.hasAccess mock st uid pc = true ↔ pc ∈ a.assignedCodes))) := by
  constructor
  · intro h
    have hnone : (Admins.getAll mock st).find? (fun x => x.id == uid) = none := by
      rw [List.find?_eq_none]
      intro x hx
      simpa using h x hx
    unfold Admins.hasAccess Admins.getById
    rw [hnone]
  · intro a ha
    constructor
    · intro hrole
      unfold Admins.hasAccess Admins.getById
      rw [ha]
      simp [hrole]
    · intro hrole
      unfold Admins.hasAccess Admins.getById
      rw [ha]
      simp only [hrole, if_false]
      exact List.elem_iff

/-- Witness for C2: with the admins collection holding exactly
`adminA` (a Community Admin assigned to P1), access is granted for P1
and denied for P2. -/
theorem hasAccess_correct_witness :
    Admins.hasAccess [] store0 "u1" "P1" = true
    ∧ Admins.hasAccess [] store0 "u1" "P2" = false := by
  constructor
  · exact (((hasAccess_correct [] store0 "u1" "P1").2 adminA (by decide)).2
      (by decide)).mpr (by decide)
  · have h2 := (((hasAccess_correct [] store0 "u1" "P2").2 adminA
      (by decide)).2 (by decide))
    have hnot : ¬ ("P2" ∈ adminA.assignedCodes) := by decide
    exact Bool.eq_false_iff.mpr (fun hc => hnot (h2.mp hc))

-- ===========================================================================
-- C10: hasAccess is independent of the admin status field
-- ===========================================================================

/-- C10: `Admins.hasAccess` never reads the `status` field — for two
stored admin lists whose records agree pairwise on every field except
possibly `status` (so in particular for a roster where some admins
were switched to Disabled), the result is the same for every actor id
and partner code. -/
theorem hasAccess_status_independent (mock : List AdminUser) (base : Store)
    (l₁ l₂ : List AdminUser) (h : List.Forall₂ sameExceptStatus l₁ l₂)
    (uid pc : String) :
    Admins.hasAccess mock { base with admins := some l₁ } uid pc
      = Admins.hasAccess mock { base with admins := some l₂ } uid pc := by
  rw [hasAccess_eq_list mock l₁ _ uid pc rfl,
    hasAccess_eq_list mock l₂ _ uid pc rfl]
  exact hasAccessList_congr h uid pc

/-- Witness for C10: disabling `adminA` leaves its access decision for
P1 unchanged. -/
theorem hasAccess_status_independent_witness :
    Admins.hasAccess [] { store0 with admins := some [adminA] } "u1" "P1"
      = Admins.hasAccess [] { store0 with admins := some [adminADisabled] }
          "u1" "P1" :=
  hasAccess_status_independent [] store0 [adminA] [adminADisabled]
    (List.Forall₂.cons ⟨rfl, rfl, rfl, rfl, rfl, rfl⟩ List.Forall₂.nil)
    "u1" "P1"

-- ===========================================================================
-- C4: audit log capped at 1000 entries
-- ===========================================================================

theorem take_append_take (A B : List AuditLogSchema) (n : Nat) :
    (A ++ B.take n).take n = (A ++ B).take n := by
  rw [List.take_append_eq_append_take, List.take_append_eq_append_take,
    List.take_take, Nat.min_eq_left (Nat.sub_le n A.length)]

theorem recordAll_auditLogs (entries : List (AuditLogInput × String × String)) :
    ∀ st : Store, st.saveFails COLLECTION_KEYS.AUDIT_LOGS = false →
    st.auditLogs.length ≤ 1000 →
    (recordAll st entries).auditLogs
      = ((entries.map mkEntry).reverse ++ st.auditLogs).take 1000 := by
  induction entries with
  | nil =>
      intro st _ hlen
      exact (List.take_of_length_le (by simpa using hlen)).symm
  | cons e rest ih =>
      intro st hsave hlen
      have hstep : recordAll st (e :: rest)
          = recordAll ((createAuditLog st e.1 e.2.1 e.2.2).1) rest := rfl
      have hfails : ((createAuditLog st e.1 e.2.1 e.2.2).1).saveFails
          = st.saveFails := createAuditLog_fst_saveFails st e.1 e.2.1 e.2.2
      have hlogs : ((createAuditLog st e.1 e.2.1 e.2.2).1).auditLogs
          = (mkEntry e :: st.auditLogs).take 1000 :=
        createAuditLog_fst_auditLogs_ok st e.1 e.2.1 e.2.2 hsave
      rw [hstep, ih _ (by rw [hfails]; exact hsave)
        (by rw [hlogs]; exact List.length_take_le 1000 _), hlogs,
        take_append_take]
      simp [List.append_assoc]

/-- C4: starting from any audit log of at most 1000 entries, after
recording `1000 + k` entries (all persists succeeding) exactly the
1000 most recent entries remain, newest first; and the log length
never exceeds 1000 after any sequence of recorded entries. -/
theorem auditLog_cap (st : Store)
    (entries : List (AuditLogInput × String × String))
    (hsave : st.saveFails COLLECTION_KEYS.AUDIT_LOGS = false)
    (hlen : st.auditLogs.length ≤ 1000)
    (hmany : 1000 ≤ entries.length) :
    (recordAll st entries).auditLogs
        = ((entries.map mkEntry).reverse).take 1000
    ∧ (recordAll st entries).auditLogs.length = 1000
    ∧ (∀ es : List (AuditLogInput × String × String),
        (recordAll st es).auditLogs.length ≤ 1000) := by
  have hrevlen : 1000 ≤ (entries.map mkEntry).reverse.length := by
    simpa using hmany
  have hmain := recordAll_auditLogs entries st hsave hlen
  have hfirst : (recordAll st entries).auditLogs
      = ((entries.map mkEntry).reverse).take 1000 := by
    rw [hmain, List.take_append_eq_append_take, Nat.sub_eq_zero_of_le hrevlen,
      List.take_zero, List.append_nil]
  refine ⟨hfirst, ?_, ?_⟩
  · rw [hfirst, List.length_take, Nat.min_eq_left hrevlen]
  · intro es
    rw [recordAll_auditLogs es st hsave hlen]
    exact List.length_take_le 1000 _

/-- Witness for C4: recording 1000 identical entries on the empty
store leaves exactly the latest 1000, and the cap holds for every
sequence. -/
theorem auditLog_cap_witness :
    (recordAll storeEmpty (List.replicate 1000 (inp0, "a1", "t1"))).auditLogs
        = (((List.replicate 1000 (inp0, "a1", "t1")).map mkEntry).reverse).take
            1000
    ∧ (recordAll storeEmpty
        (List.replicate 1000 (inp0, "a1", "t1"))).auditLogs.length = 1000
    ∧ (∀ es : List (AuditLogInput × String × String),
        (recordAll storeEmpty es).auditLogs.length ≤ 1000) :=
  auditLog_cap storeEmpty (List.replicate 1000 (inp0, "a1", "t1")) rfl
    (by decide) (by rw [List.length_replicate])

-- ===========================================================================
-- C5: dataset version store capped at 5
-- ===========================================================================

/-- C5: when the store holds at most 5 dataset versions and the
versions key is writable, `DatasetVersions.save` prepends the new
version and keeps only the 5 most recent (so inserting into a full
store of 5 evicts exactly the oldest, last element), leaving at most
5. -/
theorem datasetVersions_cap (st : Store) (v : DatasetVersion)
    (userId newId ts : String)
    (hlen : st.versions.length ≤ 5)
    (hsave : st.saveFails COLLECTION_KEYS.VERSIONS = false) :
    ((DatasetVersions.save st v userId newId ts).1).versions
        = (v :: st.versions).take 5
    ∧ ((DatasetVersions.save st v userId newId ts).1).versions.head? = some v
    ∧ ((DatasetVersions.save st v userId newId ts).1).versions.length ≤ 5 := by
  have hvers : ((DatasetVersions.save st v userId newId ts).1).versions
      = (v :: st.versions).take 5 := by
    unfold DatasetVersions.save DatasetVersions.getAll saveToStorage
    simp only [hsave, Bool.false_eq_true, if_false]
    rw [createAuditLog_fst_versions]
    show (if (v :: st.versions).length > 5 then (v :: st.versions).dropLast
          else v :: st.versions) = (v :: st.versions).take 5
    by_cases hl : (v :: st.versions).length > 5
    · rw [if_pos hl, List.dropLast_eq_take]
      have h6 : (v :: st.versions).length = 6 := by
        have : (v :: st.versions).length ≤ 6 := by
          simpa [Nat.succ_le_succ_iff] using hlen
        omega
      rw [h6]
    · rw [if_neg hl]
      exact (List.take_of_length_le (by omega)).symm
  refine ⟨hvers, ?_, ?_⟩
  · rw [hvers]
    rfl
  · rw [hvers, List.length_take]
    exact Nat.min_le_left 5 _

/-- Witness for C5: saving a 6th version into a store already holding
5 keeps the new head and exactly the 5 most recent versions. -/
theorem datasetVersions_cap_witness :
    ((DatasetVersions.save store5 (dsv 6) "u1" "a1" "t1").1).versions
        = ((dsv 6) :: store5.versions).take 5
    ∧ ((DatasetVersions.save store5 (dsv 6) "u1" "a1" "t1").1).versions.head?
        = some (dsv 6)
    ∧ ((DatasetVersions.save store5 (dsv 6) "u1" "a1" "t1").1).versions.length
        ≤ 5 :=
  datasetVersions_cap store5 (dsv 6) "u1" "a1" "t1" (by decide) rfl

-- ===========================================================================
-- C3: audit logging as a side effect (corrected)
-- ===========================================================================

/-- Counterexample for C3: with storage rejecting writes to the
audit-log key only, `Invoices.create` persists the invoice and then
the audit-save failure propagates to the caller as an exception
(`some` error), contradicting "no exception propagates". -/
theorem audit_failure_propagates_cex :
    ((Invoices.create storeAuditBroken inv0 "u1" "a1" "t1").1).invoices = [inv0]
    ∧ (Invoices.create storeAuditBroken inv0 "u1" "a1" "t1").2
        = some ("Storage quota exceeded or unavailable for hcp_audit_logs") := by
  exact ⟨rfl, rfl⟩

/-- C3 as amended: the entity write is persisted before the audit log
is attempted, so an audit-save failure never undoes it — the invoice
is stored in either case — but the storage exception thrown while
persisting the audit entry is not caught and propagates out of
`Invoices.create` (the call returns an error exactly when the
audit-log key is unwritable). -/
theorem audit_failure_behavior (st : Store) (inv : Invoice)
    (userId newId ts : String)
    (hsave : st.saveFails COLLECTION_KEYS.INVOICES = false) :
    ((Invoices.create st inv userId newId ts).1).invoices = inv :: st.invoices
    ∧ ((Invoices.create st inv userId newId ts).2 = none
        ↔ st.saveFails COLLECTION_KEYS.AUDIT_LOGS = false) := by
  refine ⟨invoices_create_fst_invoices st inv userId newId ts hsave, ?_⟩
  unfold Invoices.create Invoices.save saveToStorage Invoices.getAll
  simp only [hsave, Bool.false_eq_true, if_false]
  rw [createAuditLog_snd]
  by_cases h : st.saveFails COLLECTION_KEYS.AUDIT_LOGS <;> simp [h]

/-- Witness for the amended C3: on a store with working storage the
invoice is prepended and no exception escapes. -/
theorem audit_failure_behavior_witness :
    ((Invoices.create storeEmpty inv0 "u1" "a1" "t1").1).invoices
        = inv0 :: storeEmpty.invoices
    ∧ ((Invoices.create storeEmpty inv0 "u1" "a1" "t1").2 = none
        ↔ storeEmpty.saveFails COLLECTION_KEYS.AUDIT_LOGS = false) :=
  audit_failure_behavior storeEmpty inv0 "u1" "a1" "t1" rfl

-- ===========================================================================
-- C6: create/getById/getAll round trip (corrected)
-- ===========================================================================

/-- Counterexample for C6: after creating `inv0` (partner code P1),
`getAll("")` is called with a partner code different from P1, yet the
invoice is included — the JS falsy check skips filtering for the empty
string, so "excludes it when it does not match" fails at `""`. -/
theorem invoices_getAll_empty_filter_cex :
    inv0.partnerCode ≠ ""
    ∧ inv0 ∈ Invoices.getAll ((Invoices.create storeEmpty inv0 "u1" "a1" "t1").1)
        (some "") := by
  constructor
  · decide
  · decide

/-- C6 as amended: after `create(invoice)` (with a writable invoices
key), `getById(invoice.id)` returns the invoice unchanged, and
`getAll(partnerCode)` includes it when partnerCode equals
invoice.partnerCode and excludes it when partnerCode is non-empty and
different; for the empty (falsy) partner code no filter is applied and
the invoice is included. -/
theorem invoices_create_roundtrip (st : Store) (inv : Invoice)
    (userId newId ts : String)
    (hsave : st.saveFails COLLECTION_KEYS.INVOICES = false) :
    Invoices.getById ((Invoices.create st inv userId newId ts).1) inv.id
        = some inv
    ∧ inv ∈ Invoices.getAll ((Invoices.create st inv userId newId ts).1)
        (some inv.partnerCode)
    ∧ (∀ pc : String, pc.isEmpty = false → pc ≠ inv.partnerCode →
        inv ∉ Invoices.getAll ((Invoices.create st inv userId newId ts).1)
          (some pc))
    ∧ (∀ pc : String, pc.isEmpty = true →
        inv ∈ Invoices.getAll ((Invoices.create st inv userId newId ts).1)
          (some pc)) := by
  have hinv : ((Invoices.create st inv userId newId ts).1).invoices
      = inv :: st.invoices := invoices_create_fst_invoices st inv userId newId ts hsave
  have hgetAll : ∀ q : String,
      Invoices.getAll ((Invoices.create st inv userId newId ts).1) (some q)
        = if q.isEmpty = true then inv :: st.invoices
          else (inv :: st.invoices).filter (fun i => i.partnerCode == q) := by
    intro q
    unfold Invoices.getAll
    rw [hinv]
  refine ⟨?_, ?_, ?_, ?_⟩
  · unfold Invoices.getById Invoices.getAll
    rw [hinv]
    simp [List.find?_cons]
  · rw [hgetAll]
    by_cases he : inv.partnerCode.isEmpty
    · simp [he]
    · rw [Bool.not_eq_true] at he
      simp only [he, Bool.false_eq_true, if_false]
      rw [List.mem_filter]
      exact ⟨List.mem_cons_self inv st.invoices, by simp⟩
  · intro pc hpe hpne hmem
    rw [hgetAll, hpe] at hmem
    simp only [Bool.false_eq_true, if_false] at hmem
    rw [List.mem_filter] at hmem
    have heq : inv.partnerCode = pc := by simpa using hmem.2
    exact hpne heq.symm
  · intro pc hpe
    rw [hgetAll, hpe]
    simp

/-- Witness for the amended C6: creating `inv0` (partner P1) on the
empty store, `getById` returns it, `getAll("P1")` includes it,
`getAll("P2")` excludes it, and `getAll("")` includes it. -/
theorem invoices_create_roundtrip_witness :
    Invoices.getById ((Invoices.create storeEmpty inv0 "u1" "a1" "t1").1) inv0.id
        = some inv0
    ∧ inv0 ∈ Invoices.getAll ((Invoices.create storeEmpty inv0 "u1" "a1" "t1").1)
        (some inv0.partnerCode)
    ∧ inv0 ∉ Invoices.getAll ((Invoices.create storeEmpty inv0 "u1" "a1" "t1").1)
        (some "P2")
    ∧ inv0 ∈ Invoices.getAll ((Invoices.create storeEmpty inv0 "u1" "a1" "t1").1)
        (some "") := by
  have h := invoices_create_roundtrip storeEmpty inv0 "u1" "a1" "t1" rfl
  exact ⟨h.1, h.2.1, h.2.2.1 "P2" (by decide) (by decide),
    h.2.2.2 "" (by decide)⟩

-- ===========================================================================
-- C7: Invoices.update semantics
-- ===========================================================================

/-- C7: updating an absent id is a silent no-op — the call returns
without error, the store is untouched and no audit entry is written;
updating a present id (with a writable invoices key) replaces the
first matching record by the spread-merge of the old record with the
patch and leaves every other position unchanged. -/
theorem invoices_update_spec (st : Store) (id : String)
    (updates : InvoicePatch) (userId newId ts : String) :
    ((∀ i ∈ Invoices.getAll st none, i.id ≠ id) →
        Invoices.update st id updates userId newId ts = (st, none))
    ∧ (∀ idx old,
        (Invoices.getAll st none).findIdx? (fun i => i.id == id) = some idx →
        (Invoices.getAll st none)[idx]? = some old →
        st.saveFails COLLECTION_KEYS.INVOICES = false →
        ((Invoices.update st id updates userId newId ts).1).invoices
            = (Invoices.getAll st none).set idx (applyPatch updates old)
        ∧ ((Invoices.update st id updates userId newId ts).1).invoices[idx]?
            = some (applyPatch updates old)
        ∧ (∀ j, j ≠ idx →
            ((Invoices.update st id updates userId newId ts).1).invoices[j]?
              = (Invoices.getAll st none)[j]?)) := by
  constructor
  · intro h
    have hnone : (Invoices.getAll st none).findIdx? (fun i => i.id == id)
        = none := by
      rw [List.findIdx?_eq_none_iff]
      intro x hx
      have := h x hx
      simpa using this
    simp only [Invoices.update, hnone]
  · intro idx old hfind hget hsave
    have hupd : ((Invoices.update st id updates userId newId ts).1).invoices
        = (Invoices.getAll st none).set idx (applyPatch updates old) := by
      simp only [Invoices.update, hfind, hget]
      unfold Invoices.save saveToStorage
      simp only [hsave, Bool.false_eq_true, if_false]
      rw [createAuditLog_fst_invoices]
    have hlt : idx < (Invoices.getAll st none).length := by
      have := List.findIdx?_eq_some_iff_findIdx_eq.mp hfind
      exact this.1
    refine ⟨hupd, ?_, ?_⟩
    · rw [hupd]
      exact List.getElem?_set_eq_of_lt (applyPatch updates old) hlt
    · intro j hj
      rw [hupd]
      exact List.getElem?_set_ne (Ne.symm hj)

/-- Witness for C7: updating the absent id `zz` leaves `storeInv`
untouched with no error, and updating `i1` replaces the stored invoice
by the merge with `patch0`. -/
theorem invoices_update_spec_witness :
    Invoices.update storeInv "zz" patch0 "u1" "a1" "t1" = (storeInv, none)
    ∧ ((Invoices.update storeInv "i1" patch0 "u1" "a1" "t1").1).invoices
        = [applyPatch patch0 inv0] := by
  constructor
  · exact (invoices_update_spec storeInv "zz" patch0 "u1" "a1" "t1").1
      (by decide)
  · have h := ((invoices_update_spec storeInv "i1" patch0 "u1" "a1" "t1").2
      0 inv0 (by decide) rfl rfl).1
    exact h.trans rfl

-- ===========================================================================
-- Gateway helper lemmas
-- ===========================================================================

theorem handleGet_statusCode_ne_401 (env : GwEnv) (event : GwEvent) :
    (handleGet env event).response.statusCode ≠ 401 := by
  unfold handleGet
  split
  · simp
  · split
    · simp
    · split
      · simp
      · dsimp only
        split <;> simp

theorem handlePost_statusCode_ne_401 (env : GwEnv) (event : GwEvent) :
    (handlePost env event).response.statusCode ≠ 401 := by
  unfold handlePost
  split
  · simp
  · split
    · simp
    · split
      · simp
      · dsimp only
        split
        · simp
        · split <;> simp

theorem badChar_not_validColumnName (k : String) (c : Char) (hc : c ∈ k.data)
    (hbad : (isAsciiLetter c || isAsciiDigit c || c == "_".front) = false) :
    isValidColumnName k = false := by
  unfold isValidColumnName
  rcases hd : k.data with _ | ⟨c0, rest⟩
  · rfl
  · rw [hd] at hc
    have hblet : isAsciiLetter c = false := by
      cases h1 : isAsciiLetter c
      · rfl
      · rw [h1] at hbad
        simp at hbad
    have hbu : (c == "_".front) = false := by
      cases h1 : (c == "_".front)
      · rfl
      · rw [h1] at hbad
        simp at hbad
    rcases List.mem_cons.mp hc with hceq | hcrest
    · subst hceq
      show ((isAsciiLetter c || c == "_".front)
          && rest.all (fun d => isAsciiLetter d || isAsciiDigit d
            || d == "_".front)) = false
      rw [hblet, hbu]
      rfl
    · have hall : rest.all
          (fun d => isAsciiLetter d || isAsciiDigit d || d == "_".front)
          = false := by
        cases h1 : rest.all
            (fun d => isAsciiLetter d || isAsciiDigit d || d == "_".front)
        · rfl
        · have := List.all_eq_true.mp h1 c hcrest
          rw [hbad] at this
          exact absurd this (by simp)
      show ((isAsciiLetter c0 || c0 == "_".front)
          && rest.all (fun d => isAsciiLetter d || isAsciiDigit d
            || d == "_".front)) = false
      rw [hall]
      simp

-- ===========================================================================
-- C1: gateway bearer-token authentication
-- ===========================================================================

/-- C1: with a configured (non-empty) signing secret, a request whose
bearer token decodes to well-formed claims signed with that secret and
not yet expired proceeds past authentication (never answers 401),
while a request with a missing or non-Bearer authorization header is
answered `401 Unauthorized` and one whose token fails verification
(malformed, wrong secret, or expired) is answered `401 Invalid token`
— in both rejection cases without issuing any storage query. -/
theorem gateway_auth (env : GwEnv) (event : GwEvent)
    (decode : String → JwtTok) (now : Nat) (secret : String)
    (hsec : env.jwtSecret = some secret) (hne : secret.isEmpty = false)
    (hver : env.verifyTok = fun tok sec => jwtVerify decode tok sec now) :
    (∀ h, jsOrStr event.authorization event.authorizationCap = some h →
        strStartsWith h "Bearer " = true →
        (decode (h.drop 7)).wellFormed = true →
        (decode (h.drop 7)).secret = secret →
        now < (decode (h.drop 7)).exp →
        (handler env event).response.statusCode ≠ 401)
    ∧ (jsOrStr event.authorization event.authorizationCap = none →
        handler env event = ⟨⟨401, RespBody.error "Unauthorized"⟩, []⟩)
    ∧ (∀ h, jsOrStr event.authorization event.authorizationCap = some h →
        strStartsWith h "Bearer " = false →
        handler env event = ⟨⟨401, RespBody.error "Unauthorized"⟩, []⟩)
    ∧ (∀ h, jsOrStr event.authorization event.authorizationCap = some h →
        strStartsWith h "Bearer " = true →
        jwtVerify decode (h.drop 7) secret now = false →
        handler env event = ⟨⟨401, RespBody.error "Invalid token"⟩, []⟩) := by
  refine ⟨?_, ?_, ?_, ?_⟩
  · intro h hj hsw hwf hs hexp
    have hverify : env.verifyTok (h.drop 7) secret = true := by
      rw [hver]
      show ((decode (h.drop 7)).wellFormed
          && ((decode (h.drop 7)).secret == secret)
          && decide (now < (decode (h.drop 7)).exp)) = true
      rw [hwf, hs, beq_self_eq_true, decide_eq_true hexp]
      rfl
    unfold handler
    rw [hj]
    simp only [hsw, Bool.not_true, Bool.false_eq_true, if_false]
    rw [hsec]
    simp only [hne, Bool.false_eq_true, if_false]
    simp only [hverify, Bool.not_true, Bool.false_eq_true, if_false]
    by_cases hg : (event.httpMethod == "GET") = true
    · simp only [hg, if_true]
      exact handleGet_statusCode_ne_401 env event
    · simp only [hg, Bool.false_eq_true, if_false]
      by_cases hp : (event.httpMethod == "POST") = true
      · simp only [hp, if_true]
        exact handlePost_statusCode_ne_401 env event
      · simp only [hp, Bool.false_eq_true, if_false]
        decide
  · intro hj
    unfold handler
    rw [hj]
  · intro h hj hsw
    unfold handler
    rw [hj]
    simp [hsw]
  · intro h hj hsw hfail
    unfold handler
    rw [hj]
    simp only [hsw, Bool.not_true, Bool.false_eq_true, if_false]
    rw [hsec]
    simp only [hne, Bool.false_eq_true, if_false]
    rw [hver]
    simp [hfail]

/-- Witness for C1: with secret `s` configured, the valid bearer
request `eventGet` is not answered 401, and the header-less request is
answered `401 Unauthorized`. -/
theorem gateway_auth_witness :
    (handler env0 eventGet).response.statusCode ≠ 401
    ∧ handler env0 eventNoAuth = ⟨⟨401, RespBody.error "Unauthorized"⟩, []⟩ := by
  constructor
  · exact (gateway_auth env0 eventGet decode0 0 "s" rfl (by decide) rfl).1
      "Bearer abc" rfl (by decide) rfl rfl (by decide)
  · exact (gateway_auth env0 eventNoAuth decode0 0 "s" rfl (by decide) rfl).2.1
      rfl

-- ===========================================================================
-- C8: invalid column names rejected before storage
-- ===========================================================================

/-- C8: an authenticated POST whose data object has a field name
containing a character outside `[a-zA-Z0-9_]` is answered status 400
and no query is issued against the storage layer. -/
theorem gateway_rejects_bad_column (env : GwEnv) (event : GwEvent)
    (secret : String) (hsec : env.jwtSecret = some secret)
    (hne : secret.isEmpty = false)
    (h : String)
    (hj : jsOrStr event.authorization event.authorizationCap = some h)
    (hsw : strStartsWith h "Bearer " = true)
    (hver : env.verifyTok (h.drop 7) secret = true)
    (hmeth : event.httpMethod = "POST")
    (pb : PostBody) (hpb : event.parsedBody = Except.ok pb)
    (kvs : List (String × String)) (hdata : pb.data = some kvs)
    (k : String) (hk : k ∈ kvs.map (fun kv => kv.1))
    (c : Char) (hc : c ∈ k.data)
    (hbad : (isAsciiLetter c || isAsciiDigit c || c == "_".front) = false) :
    (handler env event).response.statusCode = 400
    ∧ (handler env event).queries = [] := by
  have hred : handler env event = handlePost env event := by
    unfold handler
    rw [hj]
    simp only [hsw, Bool.not_true, Bool.false_eq_true, if_false]
    rw [hsec]
    simp only [hne, Bool.false_eq_true, if_false]
    simp only [hver, Bool.not_true, Bool.false_eq_true, if_false]
    rw [hmeth]
    have hg : (("POST" : String) == "GET") = false := by decide
    have hp : (("POST" : String) == "POST") = true := by decide
    simp only [hg, Bool.false_eq_true, if_false, hp, if_true]
  have hinvalid : isValidColumnName k = false :=
    badChar_not_validColumnName k c hc hbad
  have hany : (kvs.map (fun kv => kv.1)).any
      (fun x => !isValidColumnName x) = true := by
    rw [List.any_eq_true]
    exact ⟨k, hk, by rw [hinvalid]; rfl⟩
  rw [hred]
  unfold handlePost
  rw [hpb]
  dsimp only
  by_cases hb : (!jsTruthy pb.type || pb.data == none) = true
  · rw [if_pos hb]
    exact ⟨rfl, rfl⟩
  · rw [if_neg hb]
    cases htm : entityTableMap (pb.type.getD "") with
    | none => exact ⟨rfl, rfl⟩
    | some tn =>
        dsimp only
        have hcond : (((pb.data.getD []).map (fun kv => kv.1)).any
            (fun x => !isValidColumnName x)) = true := by
          rw [hdata]
          exact hany
        rw [if_pos hcond]
        exact ⟨rfl, rfl⟩

/-- Witness for C8: the authenticated POST with field name `bad col`
(space character) is answered 400 with an empty query trace. -/
theorem gateway_rejects_bad_column_witness :
    (handler env0 eventBadCol).response.statusCode = 400
    ∧ (handler env0 eventBadCol).queries = [] :=
  gateway_rejects_bad_column env0 eventBadCol "s" rfl (by decide)
    "Bearer abc" rfl (by decide) (by decide) rfl
    { type := some "invoices", data := some [("bad col", "x")] } rfl
    [("bad col", "x")] rfl "bad col" (by decide) (" ".front) (by decide)
    (by decide)

-- ===========================================================================
-- C9: PUT/PATCH dispatch (corrected)
-- ===========================================================================

/-- Counterexample for C9: the authenticated PUT request with a
well-formed write body is answered `405 Method not allowed` with no
query issued, while the same body via POST does reach the storage
layer — PUT is not dispatched as a write. -/
theorem gateway_put_not_dispatched_cex :
    handler env0 eventPut = ⟨⟨405, RespBody.error "Method not allowed"⟩, []⟩
    ∧ (handler env0 eventPostGood).queries ≠ [] := by
  constructor
  · decide
  · decide

/-- C9 as amended: the gateway dispatches only GET and POST; every
authenticated request with HTTP method PUT or PATCH is answered
`405 Method not allowed` without reaching any repository operation. -/
theorem gateway_put_patch_rejected (env : GwEnv) (event : GwEvent)
    (secret : String) (hsec : env.jwtSecret = some secret)
    (hne : secret.isEmpty = false)
    (h : String)
    (hj : jsOrStr event.authorization event.authorizationCap = some h)
    (hsw : strStartsWith h "Bearer " = true)
    (hver : env.verifyTok (h.drop 7) secret = true)
    (hmeth : event.httpMethod = "PUT" ∨ event.httpMethod = "PATCH") :
    handler env event = ⟨⟨405, RespBody.error "Method not allowed"⟩, []⟩ := by
  unfold handler
  rw [hj]
  simp only [hsw, Bool.not_true, Bool.false_eq_true, if_false]
  rw [hsec]
  simp only [hne, Bool.false_eq_true, if_false]
  simp only [hver, Bool.not_true, Bool.false_eq_true, if_false]
  rcases hmeth with hm | hm
  · rw [hm]
    have h1 : (("PUT" : String) == "GET") = false := by decide
    have h2 : (("PUT" : String) == "POST") = false := by decide
    simp only [h1, h2, Bool.false_eq_true, if_false]
  · rw [hm]
    have h1 : (("PATCH" : String) == "GET") = false := by decide
    have h2 : (("PATCH" : String) == "POST") = false := by decide
    simp only [h1, h2, Bool.false_eq_true, if_false]

/-- Witness for the amended C9: the authenticated PATCH request is
answered 405 with no query issued. -/
theorem gateway_put_patch_rejected_witness :
    handler env0 eventPatch = ⟨⟨405, RespBody.error "Method not allowed"⟩, []⟩ :=
  gateway_put_patch_rejected env0 eventPatch "s" rfl (by decide)
    "Bearer abc" rfl (by decide) (by decide) (Or.inr rfl)
